import Mathlib

/-!
Verification of the WebScraper repository (src/scraper.py, src/database.py,
src/models.py) against its natural-language specification.

Each Python function relevant to the claims is shallowly embedded as an
executable Lean definition; the claims are then stated and settled as
theorems about those definitions.

Python strings are embedded as lists of characters (`Str`), so that every
definition evaluates by kernel reduction on concrete inputs.  The Python
string methods used by the source (`startswith`, `strip`, `replace`,
`lower`) are given list-level embeddings below.
-/

set_option autoImplicit false

namespace WebScraper

/-- A Python string, embedded as its list of characters. -/
abbrev Str := List Char

/-- Coerce a Lean string literal into the embedding. -/
def str (s : String) : Str := s.data

/-- Python `s.startswith(t)`. -/
def startswith (s t : Str) : Bool := t.isPrefixOf s

/-- The ASCII whitespace recognized by the embedding of `str.strip()`. -/
def isPySpace (c : Char) : Bool := c = ' ' || c = '\t' || c = '\n' || c = '\r'

/-- Python `s.strip()` (restricted to ASCII whitespace). -/
def strip (s : Str) : Str :=
  ((s.dropWhile isPySpace).reverse.dropWhile isPySpace).reverse

/-- Worker for `replace`, structurally recursive on a fuel argument so
that it evaluates by kernel reduction; one unit of fuel is spent per
consumed character, so `s.length` fuel always suffices. -/
def replaceGo (pat rep : Str) : Nat → Str → Str
  | 0, s => s
  | _ + 1, [] => []
  | fuel + 1, c :: rest =>
    if pat.isPrefixOf (c :: rest) && !pat.isEmpty then
      rep ++ replaceGo pat rep fuel ((c :: rest).drop pat.length)
    else
      c :: replaceGo pat rep fuel rest

/-- Python `s.replace(pat, rep)` for a non-empty pattern: replace every
non-overlapping occurrence, scanning left to right. -/
def replace (s pat rep : Str) : Str := replaceGo pat rep s.length s

/-- Python `s.lower()` (per-character case folding). -/
def lower (s : Str) : Str := s.map Char.toLower

end WebScraper

namespace WebScraper

/-! ## Category Resolver (src/scraper.py, `discover_all_product_categories`) -/

/-- One entry of the `category_links` dict built by
`discover_all_product_categories`: the pair `(url, label)`, url being the
dict key.  Python dicts preserve insertion order, so the dict is embedded
as an association list with distinct keys. -/
abbrev Candidate := Str × Str

/-- The duplicate-avoidance pass of `discover_all_product_categories`
(src/scraper.py lines 80-96): a candidate url is kept iff no *other*
candidate url starts with it (`other_url.startswith(current_url)` in the
source — raw, case-sensitive string-prefix comparison). -/
def ancestorFilter (cand : List Candidate) : List Candidate :=
  cand.filter fun p => !(cand.any fun q => q.1 != p.1 && startswith q.1 p.1)

/-- The value returned by `discover_all_product_categories` from the
candidate dict (src/scraper.py lines 80-99): the surviving candidates as
`(name, url)` pairs, in dict order. -/
def final_category_links (cand : List Candidate) : List (Str × Str) :=
  (ancestorFilter cand).map fun p => (p.2, p.1)

/-- Trailing-slash-normalized, case-folded form of a URL: the comparison
the spec's no-ancestor invariant is phrased in ("case-insensitive,
trailing-slash-normalized comparison"). -/
def normUrl (u : Str) : Str :=
  let l := lower u
  if l.getLast? = some '/' then l.dropLast else l

/-- The spec's relation "u is a path-prefix ancestor of v" under the
normalized comparison: after normalization the two differ and u, extended
by a path separator, begins v extended by a path separator. -/
def normPrefixAncestor (u v : Str) : Bool :=
  normUrl u != normUrl v &&
    (normUrl u ++ ['/']).isPrefixOf (normUrl v ++ ['/'])

/-- Membership in the filtered candidate list gives membership in the
candidate list together with the kept-condition. -/
theorem mem_ancestorFilter {cand : List Candidate} {p : Candidate}
    (hp : p ∈ ancestorFilter cand) :
    p ∈ cand ∧ ∀ q ∈ cand, q.1 ≠ p.1 → startswith q.1 p.1 = false := by
  have h1 : p ∈ cand := List.mem_of_mem_filter hp
  have h2 := List.of_mem_filter hp
  refine ⟨h1, ?_⟩
  intro q hq hne
  by_contra hSt
  have hSt' : startswith q.1 p.1 = true := by
    cases hEq : startswith q.1 p.1 with
    | false => exact absurd hEq hSt
    | true => rfl
  have : (cand.any fun q => q.1 != p.1 && startswith q.1 p.1) = true := by
    rw [List.any_eq_true]
    exact ⟨q, hq, by simp [hne, hSt']⟩
  rw [this] at h2
  simp at h2

/-- The candidate dict refuting C1: two category URLs differing in letter
case, one a path-ancestor of the other after case folding; the
case-sensitive filter of the source keeps both. -/
def cexCand : List Candidate :=
  [(str "http://shop.example/Tools", str "Tools"),
   (str "http://shop.example/tools/saws", str "Tools > Saws")]

end WebScraper

namespace WebScraper

/-- C1 (counterexample): `discover_all_product_categories` can return two
distinct URLs where one IS a path-prefix ancestor of the other under the
case-insensitive, trailing-slash-normalized comparison, because the
source's filter compares raw case-sensitive strings. -/
theorem resolver_norm_ancestor_violated :
    ∃ p ∈ final_category_links cexCand, ∃ q ∈ final_category_links cexCand,
      p.2 ≠ q.2 ∧ normPrefixAncestor p.2 q.2 = true := by
  refine ⟨(str "Tools", str "http://shop.example/Tools"), ?_,
          (str "Tools > Saws", str "http://shop.example/tools/saws"),
          ?_, ?_, ?_⟩ <;> decide

/-- C1 (amended): the Resolver's output contains no two distinct URLs where
one is a raw, case-sensitive string prefix of the other (no case folding
and no trailing-slash normalization is applied by the source). -/
theorem resolver_no_raw_prefix_pair (cand : List Candidate)
    (p q : Str × Str)
    (hp : p ∈ final_category_links cand) (hq : q ∈ final_category_links cand)
    (hne : p.2 ≠ q.2) : startswith q.2 p.2 = false := by
  obtain ⟨a, ha, rfl⟩ := List.mem_map.mp hp
  obtain ⟨b, hb, rfl⟩ := List.mem_map.mp hq
  obtain ⟨-, hkeep⟩ := mem_ancestorFilter ha
  have hbCand : b ∈ cand := (mem_ancestorFilter hb).1
  exact hkeep b hbCand (fun h => hne h.symm)

/-- Witness for the amended C1 at a concrete candidate dict. -/
theorem resolver_no_raw_prefix_pair_witness :
    (str "A", str "http://s/a") ∈ final_category_links
        [(str "http://s/a", str "A"), (str "http://s/b", str "B")] ∧
    startswith (str "http://s/b") (str "http://s/a") = false :=
  ⟨by decide,
   resolver_no_raw_prefix_pair
     [(str "http://s/a", str "A"), (str "http://s/b", str "B")]
     (str "A", str "http://s/a") (str "B", str "http://s/b")
     (by decide) (by decide) (by decide)⟩

/-- C2: the ancestor-removal pass is idempotent — running it on its own
output removes nothing further. -/
theorem ancestorFilter_idempotent (cand : List Candidate) :
    ancestorFilter (ancestorFilter cand) = ancestorFilter cand := by
  apply List.filter_eq_self.mpr
  intro a ha
  have h2 := List.of_mem_filter ha
  rw [Bool.not_eq_true', List.any_eq_false] at h2 ⊢
  intro q hq
  exact h2 q (List.mem_of_mem_filter hq)

end WebScraper

namespace WebScraper

/-! ## Page Extractor (src/scraper.py, `extract_products`) -/

/-- The `a.product-card__name` element of a product card: its text and its
(possibly absent) `href` attribute. -/
structure NameLink where
  text : Str
  href : Option Str
deriving DecidableEq, Repr

/-- The parts of one `div.product-listing__item` product card that
`extract_products` reads.  `none` models an absent element; for the image,
the inner option models an absent `src` attribute.  Python truthiness
makes an empty attribute behave like an absent one, so the embedding
tests emptiness where the source tests truthiness. -/
structure Card where
  nameLink : Option NameLink
  priceText : Option Str
  image : Option (Option Str)
deriving DecidableEq, Repr

/-- The dict appended to `products` for one card
(src/scraper.py lines 139-145). -/
structure ProductDict where
  category : Str
  name : Str
  price_excl_btw : Str
  url : Str
  image_url : Str
deriving DecidableEq, Repr

/-- The body of the per-card loop of `extract_products`
(src/scraper.py lines 112-145).  `resolve` embeds
`urljoin(BASE_URL, ·)`. -/
def extractCard (resolve : Str → Str) (category_name : Str) (c : Card) :
    ProductDict where
  category := category_name
  name :=
    match c.nameLink with
    | some nl => strip nl.text
    | none => str "N/A"
  price_excl_btw :=
    match c.priceText with
    | some t => strip (replace (replace t (str "€") []) (str ",") (str "."))
    | none => str "N/A"
  url :=
    match c.nameLink with
    | some nl =>
      match nl.href with
      | some h => if h.isEmpty then str "N/A" else resolve h
      | none => str "N/A"
    | none => str "N/A"
  image_url :=
    match c.image with
    | some (some s) => if s.isEmpty then str "N/A" else s
    | some none => str "N/A"
    | none => str "N/A"

/-- `extract_products` (src/scraper.py lines 102-147): one dict appended
per product card, in page order.  The early return when no containers are
found coincides with the loop over an empty list. -/
def extract_products (resolve : Str → Str) (category_name : Str)
    (cards : List Card) : List ProductDict :=
  cards.foldl (fun products c => products ++ [extractCard resolve category_name c]) []

/-- Accumulating one element per input with `++` is `map`. -/
theorem foldl_append_singleton_eq_map {α β : Type} (f : α → β)
    (l : List α) (acc : List β) :
    l.foldl (fun ps c => ps ++ [f c]) acc = acc ++ l.map f := by
  induction l generalizing acc with
  | nil => simp
  | cons c t ih => simp [ih]

/-- The extraction loop is exactly a map over the cards. -/
theorem extract_products_eq_map (resolve : Str → Str) (category_name : Str)
    (cards : List Card) :
    extract_products resolve category_name cards
      = cards.map (extractCard resolve category_name) := by
  simp [extract_products, foldl_append_singleton_eq_map]

end WebScraper

namespace WebScraper

/-- C10: `extract_products` yields exactly one record per product card, in
document order, and never drops a card; a missing name link, missing href,
missing price element, or missing image element each leave the sentinel
`"N/A"` in the corresponding field while the record is still emitted. -/
theorem extract_products_record_per_card (resolve : Str → Str)
    (cat : Str) (cards : List Card) :
    (extract_products resolve cat cards).length = cards.length ∧
    (∀ i : Nat, (extract_products resolve cat cards)[i]?
        = (cards[i]?).map (extractCard resolve cat)) ∧
    (∀ pt img, (extractCard resolve cat ⟨none, pt, img⟩).name = str "N/A" ∧
      (extractCard resolve cat ⟨none, pt, img⟩).url = str "N/A") ∧
    (∀ txt pt img,
      (extractCard resolve cat ⟨some ⟨txt, none⟩, pt, img⟩).url = str "N/A") ∧
    (∀ nl img,
      (extractCard resolve cat ⟨nl, none, img⟩).price_excl_btw = str "N/A") ∧
    (∀ nl pt,
      (extractCard resolve cat ⟨nl, pt, none⟩).image_url = str "N/A") := by
  refine ⟨?_, ?_, fun pt img => ⟨rfl, rfl⟩, fun txt pt img => rfl,
    fun nl img => rfl, fun nl pt => rfl⟩
  · rw [extract_products_eq_map]; simp
  · intro i
    rw [extract_products_eq_map]
    exact List.getElem?_map _ _ _

/-- Is this string a plain decimal numeral (digits with at most one
decimal point)?  This is the claim-side notion of a successful decimal
parse. -/
def isDecimalNumeral (s : Str) : Bool :=
  s.any Char.isDigit && s.all (fun c => c.isDigit || c = '.') &&
    (s.filter (fun c => c = '.')).length ≤ 1

/-- The price pipeline as C5 words it (claim side, for comparison with the
source): strip the currency symbol, strip thousands separators, convert a
comma decimal separator to a period. -/
def specPricePipeline (t : Str) : Str :=
  strip (replace (replace (replace t (str "€") []) (str ".") []) (str ",") (str "."))

end WebScraper

namespace WebScraper

/-- C5 (counterexample): on the price text `"€ 1.299,00"` the source keeps
the thousands separator and performs no decimal parse: the stored price is
the string `"1.299.00"`, which is not a decimal numeral, yet is not the
absent sentinel either — while the pipeline the claim describes would have
produced the numeral `"1299.00"`. -/
theorem price_parse_claim_violated :
    (extractCard (fun h => h) (str "c")
        ⟨some ⟨str "n", some (str "/p")⟩, some (str "€ 1.299,00"), none⟩).price_excl_btw
      = str "1.299.00" ∧
    isDecimalNumeral (str "1.299.00") = false ∧
    str "1.299.00" ≠ str "N/A" ∧
    specPricePipeline (str "€ 1.299,00") = str "1299.00" ∧
    isDecimalNumeral (str "1299.00") = true := by
  refine ⟨?_, ?_, ?_, ?_, ?_⟩ <;> decide

/-- C5 (amended): for every card with a price element, `extract_products`
produces the price by deleting every euro sign, replacing every comma with
a period and trimming whitespace, keeping the result as an unparsed
string; for every card without a price element the price is the sentinel
`"N/A"`; in both cases the record is still produced. -/
theorem extract_products_price_policy (resolve : Str → Str)
    (cat : Str) (cards : List Card) :
    ∀ i : Nat, ((extract_products resolve cat cards)[i]?).map (·.price_excl_btw)
      = (cards[i]?).map (fun c =>
          match c.priceText with
          | some t => strip (replace (replace t (str "€") []) (str ",") (str "."))
          | none => str "N/A") := by
  intro i
  rw [extract_products_eq_map]
  rw [List.getElem?_map]
  cases cards[i]? with
  | none => rfl
  | some c => rfl

end WebScraper

namespace WebScraper

/-! ## Category Crawler (src/scraper.py, `scrape_category_and_pages`) -/

/-- A fetched category-listing document, reduced to what the pagination
loop reads: its product cards and the href of its `<link rel="next">`
element, when present. -/
structure CatDoc where
  cards : List Card
  nextHref : Option Str
deriving DecidableEq, Repr

/-- The pagination loop of `scrape_category_and_pages` (src/scraper.py
lines 158-192).  `site` embeds `fetch_page` (`none` is a fetch error) and
`resolve` embeds `urljoin(BASE_URL, ·)`.  The loop is driven purely by the
documents' next links, so a `fuel` argument bounds the iterations to keep
the embedding total; every claim is stated with enough fuel for its
chain.  Besides the accumulated records, the embedding returns the list
of URLs the loop attempted to fetch (which the source only prints), so
that "does not follow the next link" is provable.  The source's empty-page
branch distinguishes `page_count == 1` from later pages only to choose a
log message; the embedding keeps the two branches. -/
def scrapeGo (site : Str → Option CatDoc) (resolve : Str → Str)
    (category_name : Str) :
    Nat → Str → Nat → List ProductDict → List ProductDict × List Str
  | 0, _, _, acc => (acc, [])
  | fuel + 1, url, page_count, acc =>
    match site url with
    | none => (acc, [url])
    | some doc =>
      let ps := extract_products resolve category_name doc.cards
      if ps.isEmpty then
        if page_count = 1 then (acc, [url]) else (acc, [url])
      else
        match doc.nextHref with
        | some h =>
          let rest := scrapeGo site resolve category_name fuel (resolve h)
            (page_count + 1) (acc ++ ps)
          (rest.1, url :: rest.2)
        | none => (acc ++ ps, [url])

/-- `scrape_category_and_pages`: run the pagination loop from the
category's URL, page count 1, empty accumulator. -/
def scrape_category_and_pages (site : Str → Option CatDoc)
    (resolve : Str → Str) (category_name : Str) (fuel : Nat)
    (start_url : Str) : List ProductDict × List Str :=
  scrapeGo site resolve category_name fuel start_url 1 []

/-- A healthy pagination chain: from `u`, each listed page is fetched
successfully, yields a non-empty extraction and links to the next page;
the chain ends at `v`, the URL reached after the last healthy page.  Each
entry records a page's URL and its extracted records. -/
inductive Chain (site : Str → Option CatDoc) (resolve : Str → Str)
    (category_name : Str) : Str → List (Str × List ProductDict) → Str → Prop
  | nil (u : Str) : Chain site resolve category_name u [] u
  | cons (u : Str) (doc : CatDoc) (h : Str)
      (l : List (Str × List ProductDict)) (v : Str)
      (hfetch : site u = some doc)
      (hne : extract_products resolve category_name doc.cards ≠ [])
      (hnext : doc.nextHref = some h)
      (htail : Chain site resolve category_name (resolve h) l v) :
      Chain site resolve category_name u
        ((u, extract_products resolve category_name doc.cards) :: l) v


/-- One loop iteration, failed fetch: stop with the accumulator. -/
theorem scrapeGo_fetch_fail (site : Str → Option CatDoc)
    (resolve : Str → Str) (cat : Str) (fuel n : Nat) (url : Str)
    (acc : List ProductDict) (hfail : site url = none) :
    scrapeGo site resolve cat (fuel + 1) url n acc = (acc, [url]) := by
  simp only [scrapeGo, hfail]

/-- One loop iteration, empty extraction: stop with the accumulator,
whatever the page count and whatever next link the page carries. -/
theorem scrapeGo_empty_page (site : Str → Option CatDoc)
    (resolve : Str → Str) (cat : Str) (fuel n : Nat) (url : Str)
    (acc : List ProductDict) (doc : CatDoc) (hfetch : site url = some doc)
    (hemp : extract_products resolve cat doc.cards = []) :
    scrapeGo site resolve cat (fuel + 1) url n acc = (acc, [url]) := by
  simp only [scrapeGo, hfetch, hemp]
  simp

/-- One loop iteration, non-empty extraction with a next link: append the
page's records and continue at the resolved next URL. -/
theorem scrapeGo_step (site : Str → Option CatDoc)
    (resolve : Str → Str) (cat : Str) (fuel n : Nat) (url : Str)
    (acc : List ProductDict) (doc : CatDoc) (h : Str)
    (hfetch : site url = some doc)
    (hne : extract_products resolve cat doc.cards ≠ [])
    (hnext : doc.nextHref = some h) :
    scrapeGo site resolve cat (fuel + 1) url n acc
      = ((scrapeGo site resolve cat fuel (resolve h) (n + 1)
            (acc ++ extract_products resolve cat doc.cards)).1,
         url :: (scrapeGo site resolve cat fuel (resolve h) (n + 1)
            (acc ++ extract_products resolve cat doc.cards)).2) := by
  have hemp : (extract_products resolve cat doc.cards).isEmpty = false := by
    cases hps : extract_products resolve cat doc.cards with
    | nil => exact absurd hps hne
    | cons a t => rfl
  simp only [scrapeGo, hfetch, hemp, hnext]
  simp

/-- Walking a healthy chain accumulates each page's records, visits each
page's URL, and continues at the chain's end with the grown accumulator
and page count. -/
theorem scrapeGo_chain (site : Str → Option CatDoc) (resolve : Str → Str)
    (cat : Str) {u : Str} {l : List (Str × List ProductDict)} {v : Str}
    (hc : Chain site resolve cat u l v) :
    ∀ (fuel n : Nat) (acc : List ProductDict),
      scrapeGo site resolve cat (l.length + (fuel + 1)) u n acc
        = ((scrapeGo site resolve cat (fuel + 1) v (n + l.length)
              (acc ++ (l.map Prod.snd).flatten)).1,
           l.map Prod.fst ++ (scrapeGo site resolve cat (fuel + 1) v
              (n + l.length) (acc ++ (l.map Prod.snd).flatten)).2) := by
  induction hc with
  | nil u => intro fuel n acc; simp
  | cons u doc h l v hfetch hne hnext htail ih =>
    intro fuel n acc
    have harith : ((u, extract_products resolve cat doc.cards) :: l).length
        + (fuel + 1) = (l.length + (fuel + 1)) + 1 := by
      simp
      omega
    rw [harith]
    rw [scrapeGo_step site resolve cat (l.length + (fuel + 1)) n u acc doc h
      hfetch hne hnext]
    rw [ih fuel (n + 1) (acc ++ extract_products resolve cat doc.cards)]
    simp [Nat.add_assoc, Nat.add_comm 1 l.length]

end WebScraper

namespace WebScraper

/-- C3: if, after a chain of non-empty pages, some page's extraction
yields zero products, the crawler stops at that page — whatever its page
number, including page 1 when the chain is empty — without following any
next link it may carry: it returns exactly the records of the non-empty
pages and has fetched exactly the chain's pages plus the one empty page. -/
theorem crawler_empty_page_stop (site : Str → Option CatDoc)
    (resolve : Str → Str) (cat : Str) (u : Str)
    (l : List (Str × List ProductDict)) (v : Str) (doc : CatDoc)
    (hchain : Chain site resolve cat u l v)
    (hfetch : site v = some doc)
    (hempty : extract_products resolve cat doc.cards = []) :
    ∀ fuel : Nat,
      scrape_category_and_pages site resolve cat (l.length + (fuel + 1)) u
        = ((l.map Prod.snd).flatten, l.map Prod.fst ++ [v]) := by
  intro fuel
  unfold scrape_category_and_pages
  rw [scrapeGo_chain site resolve cat hchain fuel 1 []]
  rw [scrapeGo_empty_page site resolve cat fuel (1 + l.length) v
    ([] ++ (l.map Prod.snd).flatten) doc hfetch hempty]
  simp

/-- The product card used by the C3 and C4 witnesses. -/
def card3 : Card :=
  ⟨some ⟨str "Widget", some (str "/w")⟩, some (str "€ 5,00"), none⟩

/-- The site map of the C3 witness: page `p1` holds one product and links
to `p2`; page `p2` is fetchable but empty, and still carries a next link
to `p3`. -/
def site3 : Str → Option CatDoc := fun u =>
  if u = str "p1" then some ⟨[card3], some (str "p2")⟩
  else if u = str "p2" then some ⟨[], some (str "p3")⟩
  else none

/-- Witness for C3: on `site3` the crawler visits exactly `p1` and `p2`,
keeps page 1's record, and never fetches `p3` although the empty page
links to it. -/
theorem crawler_empty_page_stop_witness :
    scrape_category_and_pages site3 (fun h => h) (str "cat") 2 (str "p1")
      = ([extractCard (fun h => h) (str "cat") card3],
         [str "p1", str "p2"]) := by
  have hch : Chain site3 (fun h => h) (str "cat") (str "p1")
      [(str "p1", extract_products (fun h => h) (str "cat") [card3])]
      (str "p2") :=
    Chain.cons (str "p1") ⟨[card3], some (str "p2")⟩ (str "p2") [] (str "p2")
      (by decide) (by decide) (by decide) (Chain.nil (str "p2"))
  have h := crawler_empty_page_stop site3 (fun h => h) (str "cat") (str "p1")
      [(str "p1", extract_products (fun h => h) (str "cat") [card3])]
      (str "p2") ⟨[], some (str "p3")⟩ hch (by decide) (by decide) 0
  simpa using h

/-- C4: if the fetch of the page after a chain of healthy pages fails, the
crawler terminates and returns exactly the records accumulated from the
healthy pages — the partial accumulation is preserved, not discarded (and
the embedding is a total function, so no failure propagates to the
caller). -/
theorem crawler_fetch_failure_preserves_partial (site : Str → Option CatDoc)
    (resolve : Str → Str) (cat : Str) (u : Str)
    (l : List (Str × List ProductDict)) (v : Str)
    (hchain : Chain site resolve cat u l v)
    (hfail : site v = none) :
    ∀ fuel : Nat,
      scrape_category_and_pages site resolve cat (l.length + (fuel + 1)) u
        = ((l.map Prod.snd).flatten, l.map Prod.fst ++ [v]) := by
  intro fuel
  unfold scrape_category_and_pages
  rw [scrapeGo_chain site resolve cat hchain fuel 1 []]
  rw [scrapeGo_fetch_fail site resolve cat fuel (1 + l.length) v
    ([] ++ (l.map Prod.snd).flatten) hfail]
  simp

/-- The site map of the C4 witness: `q1` holds one product and links to
`q2`; fetching `q2` fails. -/
def site4 : Str → Option CatDoc := fun u =>
  if u = str "q1" then some ⟨[card3], some (str "q2")⟩
  else none

/-- Witness for C4: on `site4` the crawler keeps page 1's record after the
failed fetch of page 2. -/
theorem crawler_fetch_failure_preserves_partial_witness :
    scrape_category_and_pages site4 (fun h => h) (str "cat") 2 (str "q1")
      = ([extractCard (fun h => h) (str "cat") card3],
         [str "q1", str "q2"]) := by
  have hch : Chain site4 (fun h => h) (str "cat") (str "q1")
      [(str "q1", extract_products (fun h => h) (str "cat") [card3])]
      (str "q2") :=
    Chain.cons (str "q1") ⟨[card3], some (str "q2")⟩ (str "q2") [] (str "q2")
      (by decide) (by decide) (by decide) (Chain.nil (str "q2"))
  have h := crawler_fetch_failure_preserves_partial site4 (fun h => h)
      (str "cat") (str "q1")
      [(str "q1", extract_products (fun h => h) (str "cat") [card3])]
      (str "q2") hch (by decide) 0
  simpa using h

end WebScraper

namespace WebScraper

/-! ## Store (src/database.py `save_products_to_db`, src/models.py `Product`) -/

/-- A stored row of the `products` table (src/models.py), without the
surrogate `id` key; `scraped_at` is embedded as an abstract timestamp. -/
structure ProductRow where
  website_name : Str
  product_name : Str
  price_excl_tax : Option Str
  category_path : Option Str
  image_url : Option Str
  source_url : Str
  scraped_at : Nat
  sku : Option Str
deriving DecidableEq, Repr

/-- One incoming record, as the dict built in `save_products_to_db`
(src/database.py lines 42-52): every `Product` column except `id` and
`scraped_at`, which the column default fills with the current time. -/
structure ProductIn where
  website_name : Str
  product_name : Str
  price_excl_tax : Option Str
  category_path : Option Str
  image_url : Option Str
  source_url : Str
  sku : Option Str
deriving DecidableEq, Repr

/-- `INSERT .. ON CONFLICT (source_url) DO UPDATE` for one row
(src/database.py lines 54-66): on conflict the mutable fields
`product_name`, `price_excl_tax`, `category_path`, `image_url`, `sku` and
`scraped_at` are overwritten from the excluded row, while `source_url`,
`website_name` and the row's position are untouched; without a conflict
the row is appended, `scraped_at` filled by the column default `now`. -/
def upsertOne (now : Nat) (table : List ProductRow) (p : ProductIn) :
    List ProductRow :=
  if table.any (fun r => r.source_url = p.source_url) then
    table.map (fun r =>
      if r.source_url = p.source_url then
        { r with
          product_name := p.product_name
          price_excl_tax := p.price_excl_tax
          category_path := p.category_path
          image_url := p.image_url
          sku := p.sku
          scraped_at := now }
      else r)
  else
    table ++ [⟨p.website_name, p.product_name, p.price_excl_tax,
      p.category_path, p.image_url, p.source_url, now, p.sku⟩]

/-- A database session: the committed table and the staged state of the
open transaction, if any. -/
structure Session where
  committed : List ProductRow
  staged : Option (List ProductRow)
deriving DecidableEq, Repr

/-- Stage the effect of a statement inside the session's transaction. -/
def Session.execute (s : Session) (f : List ProductRow → List ProductRow) :
    Session :=
  { s with staged := some (f (s.staged.getD s.committed)) }

/-- Commit: the staged state becomes the committed table. -/
def Session.commit (s : Session) : Session :=
  ⟨s.staged.getD s.committed, none⟩

/-- Roll back: the staged state is discarded. -/
def Session.rollback (s : Session) : Session :=
  { s with staged := none }

/-- `save_products_to_db` (src/database.py lines 38-78) on a fresh session
over `table`; `ok` says whether the database raises while executing or
committing the bulk upsert.  The multi-row `VALUES` list is embedded as a
left fold of single-row upserts, which matches PostgreSQL whenever the
batch's `source_url`s are distinct (PostgreSQL rejects intra-batch
duplicates — one of the error cases covered by `ok = false`).  Returns
the committed table and the count reported to the caller. -/
def save_products_to_db (ok : Bool) (now : Nat) (table : List ProductRow)
    (products : List ProductIn) : List ProductRow × Nat :=
  if products.isEmpty then (table, 0)
  else
    let s : Session := ⟨table, none⟩
    let s1 := s.execute (fun t => products.foldl (upsertOne now) t)
    if ok then (s1.commit.committed, products.length)
    else (s1.rollback.committed, 0)

end WebScraper

namespace WebScraper

/-- C6: when a batch row's `source_url` already exists, the upsert
overwrites exactly the conflicting row's mutable fields (`product_name`,
`price_excl_tax`, `category_path`, `image_url`, `sku`, `scraped_at`) with
the incoming values and leaves its `source_url` (and `website_name`, and
every other row) unchanged; and upserting the same `source_url` twice
with different prices leaves exactly one stored row carrying the second
price. -/
theorem store_upsert_conflict_semantics (now1 now2 : Nat)
    (table : List ProductRow) (p q : ProductIn)
    (hconf : table.any (fun r => r.source_url = p.source_url) = true)
    (hpq : p.source_url = q.source_url) :
    save_products_to_db true now1 table [p]
      = (table.map (fun r =>
          if r.source_url = p.source_url then
            { r with
              product_name := p.product_name
              price_excl_tax := p.price_excl_tax
              category_path := p.category_path
              image_url := p.image_url
              sku := p.sku
              scraped_at := now1 }
          else r), 1) ∧
    (save_products_to_db true now2
        (save_products_to_db true now1 [] [p]).1 [q]).1
      = [⟨p.website_name, q.product_name, q.price_excl_tax, q.category_path,
          q.image_url, p.source_url, now2, q.sku⟩] := by
  constructor
  · simp [save_products_to_db, Session.execute, Session.commit, upsertOne,
      hconf]
  · simp [save_products_to_db, Session.execute, Session.commit, upsertOne,
      ← hpq]

/-- Witness for C6: a one-row table hit by a conflicting record, and the
same `source_url` saved twice with different prices. -/
theorem store_upsert_conflict_semantics_witness :
    save_products_to_db true 7
        [⟨str "site", str "Old", some (str "1.00"), none, none,
          str "http://s/p", 0, none⟩]
        [⟨str "site", str "New", some (str "2.00"), none, none,
          str "http://s/p", none⟩]
      = ([⟨str "site", str "New", some (str "2.00"), none, none,
           str "http://s/p", 7, none⟩], 1) ∧
    (save_products_to_db true 9
        (save_products_to_db true 7 []
          [⟨str "site", str "New", some (str "2.00"), none, none,
            str "http://s/p", none⟩]).1
        [⟨str "site", str "New", some (str "3.00"), none, none,
          str "http://s/p", none⟩]).1
      = [⟨str "site", str "New", some (str "3.00"), none, none,
          str "http://s/p", 9, none⟩] := by
  have h := store_upsert_conflict_semantics 7 9
      [⟨str "site", str "Old", some (str "1.00"), none, none,
        str "http://s/p", 0, none⟩]
      ⟨str "site", str "New", some (str "2.00"), none, none,
        str "http://s/p", none⟩
      ⟨str "site", str "New", some (str "3.00"), none, none,
        str "http://s/p", none⟩
      (by decide) (by decide)
  constructor
  · exact h.1.trans (by decide)
  · exact h.2.trans (by decide)

/-- C7: the batch upsert is all-or-nothing: on a database error the
transaction is rolled back, the committed table is unchanged and the call
reports 0 without raising; on success it reports the full batch length;
no call ever reports a partial count. -/
theorem store_batch_all_or_nothing (ok : Bool) (now : Nat)
    (table : List ProductRow) (products : List ProductIn) :
    save_products_to_db false now table products = (table, 0) ∧
    (products ≠ [] →
      (save_products_to_db true now table products).2 = products.length) ∧
    ((save_products_to_db ok now table products).2 = 0 ∨
      (save_products_to_db ok now table products).2 = products.length) := by
  refine ⟨?_, ?_, ?_⟩
  · cases products with
    | nil => rfl
    | cons a t => rfl
  · intro hne
    cases products with
    | nil => exact absurd rfl hne
    | cons a t => rfl
  · cases products with
    | nil => left; cases ok <;> rfl
    | cons a t => cases ok with
      | false => left; rfl
      | true => right; rfl

/-- Witness for C7 on a concrete one-record batch. -/
theorem store_batch_all_or_nothing_witness :
    (save_products_to_db true 3 []
        [⟨str "site", str "New", some (str "2.00"), none, none,
          str "http://s/p", none⟩]).2 = 1 :=
  (store_batch_all_or_nothing true 3 []
      [⟨str "site", str "New", some (str "2.00"), none, none,
        str "http://s/p", none⟩]).2.1
    (by decide)

end WebScraper

namespace WebScraper

/-! ## Candidate collection (src/scraper.py lines 52-77) -/

/-- An anchor element inside the navigation container, as the candidate
loop reads it: its position in container document order, its `href`
attribute and text, which of the two CSS selectors it matches
(`.navigation-menu__column ul li a` / `.navigation-menu__column h3 a`),
and the text of the nearest preceding `h3`, if any. -/
structure Anchor where
  pos : Nat
  href : Option Str
  text : Str
  isLeaf : Bool
  isIndex : Bool
  prevH3 : Option Str
deriving DecidableEq, Repr

/-- `all_links = list(leaf_links) + list(index_links)`
(src/scraper.py lines 53-56): each `select` call yields its matches in
document order, and the two populations are concatenated. -/
def all_links (doc : List Anchor) : List Anchor :=
  doc.filter (fun a => a.isLeaf) ++ doc.filter (fun a => a.isIndex)

/-- Is this list of anchors in (strictly increasing) container document
order? -/
def docOrdered : List Anchor → Bool
  | [] => true
  | [_] => true
  | a :: b :: t => a.pos < b.pos && docOrdered (b :: t)

/-- The href guard of src/scraper.py lines 62-66: Python truthiness of
the attribute, then the placeholder tests. -/
def hrefOk : Option Str → Bool
  | none => false
  | some h =>
    !h.isEmpty && !(h == str "#") && !(h == str "/") &&
      !startswith h (str "javascript:")

/-- The label derivation of src/scraper.py lines 60, 68-74. -/
def labelOf (a : Anchor) : Str :=
  match a.prevH3 with
  | some t => strip t ++ str " > " ++ strip a.text
  | none => strip a.text

/-- Insertion into a Python dict: an existing key keeps its position and
takes the new value (last-seen wins); a new key is appended. -/
def dictInsert (m : List (Str × Str)) (k v : Str) : List (Str × Str) :=
  if m.any (fun e => e.1 = k) then
    m.map (fun e => if e.1 = k then (k, v) else e)
  else m ++ [(k, v)]

/-- First-match lookup in the embedded dict. -/
def dictLookup (m : List (Str × Str)) (k : Str) : Option Str :=
  (m.find? (fun e => e.1 = k)).map (fun e => e.2)

/-- The candidate dict `category_links` built by the loop of
src/scraper.py lines 58-77, keyed by resolved absolute URL. -/
def category_links (resolve : Str → Str) (doc : List Anchor) :
    List (Str × Str) :=
  (all_links doc).foldl
    (fun m a =>
      if hrefOk a.href then dictInsert m (resolve (a.href.getD [])) (labelOf a)
      else m) []

/-- `docOrdered` is the chain of adjacent position increases. -/
theorem docOrdered_iff_chain (l : List Anchor) :
    docOrdered l = true ↔ l.Chain' (fun a b => a.pos < b.pos) := by
  induction l with
  | nil => simp [docOrdered]
  | cons a t ih =>
    cases t with
    | nil => simp [docOrdered]
    | cons b t2 =>
      rw [docOrdered, Bool.and_eq_true, List.chain'_cons, ih]
      simp

/-- Document order survives filtering out some anchors. -/
theorem docOrdered_filter (p : Anchor → Bool) (l : List Anchor)
    (h : docOrdered l = true) : docOrdered (l.filter p) = true := by
  haveI : IsTrans Anchor (fun a b => a.pos < b.pos) :=
    ⟨fun _ _ _ hab hbc => Nat.lt_trans hab hbc⟩
  rw [docOrdered_iff_chain, List.chain'_iff_pairwise] at h ⊢
  exact h.sublist (List.filter_sublist l)

/-- Updating the entry of an existing key makes it what lookup finds. -/
theorem find?_update (m : List (Str × Str)) (k v : Str)
    (h : m.any (fun e => e.1 = k) = true) :
    (m.map (fun e => if e.1 = k then (k, v) else e)).find?
        (fun e => e.1 = k) = some (k, v) := by
  induction m with
  | nil => simp at h
  | cons e t ih =>
    simp only [List.map_cons]
    by_cases hek : e.1 = k
    · rw [if_pos hek, List.find?_cons_of_pos]
      simp
    · rw [if_neg hek, List.find?_cons_of_neg]
      · exact ih (by simpa [hek] using h)
      · simp [hek]

/-- Appending a fresh key makes it what lookup finds. -/
theorem find?_append_fresh (m : List (Str × Str)) (k v : Str)
    (h : m.any (fun e => e.1 = k) = false) :
    (m ++ [(k, v)]).find? (fun e => e.1 = k) = some (k, v) := by
  induction m with
  | nil => simp
  | cons e t ih =>
    rw [List.any_cons, Bool.or_eq_false_iff] at h
    rw [List.cons_append, List.find?_cons_of_neg]
    · exact ih h.2
    · simpa using h.1

/-- Dict insertion is last-seen-wins: after inserting `(k, v)` a lookup
of `k` yields `v`, whether or not `k` was present. -/
theorem dictLookup_dictInsert (m : List (Str × Str)) (k v : Str) :
    dictLookup (dictInsert m k v) k = some v := by
  unfold dictInsert dictLookup
  by_cases h : m.any (fun e => e.1 = k) = true
  · rw [if_pos h, find?_update m k v h]
    rfl
  · have hf : m.any (fun e => e.1 = k) = false := by
      cases hA : m.any (fun e => e.1 = k) with
      | true => exact absurd hA h
      | false => rfl
    rw [if_neg h, find?_append_fresh m k v hf]
    rfl

/-- The document refuting the document-order half of C8: an index/header
anchor occurs before a leaf anchor in the container. -/
def doc8 : List Anchor :=
  [⟨0, some (str "/a"), str "A", false, true, none⟩,
   ⟨1, some (str "/b"), str "B", true, false, some (str "A")⟩]

end WebScraper

namespace WebScraper

/-- C8 (counterexample): on a container whose index/header anchor precedes
a leaf anchor, the source's candidate list is NOT in container document
order — the leaf population comes first wholesale — so the candidate for
the later anchor `/b` precedes the candidate for the earlier anchor
`/a`. -/
theorem candidate_order_claim_violated :
    docOrdered doc8 = true ∧
    docOrdered (all_links doc8) = false ∧
    category_links (fun h => h) doc8
      = [(str "/b", str "A > B"), (str "/a", str "A")] := by
  refine ⟨?_, ?_, ?_⟩ <;> decide

/-- C8 (amended): the Resolver's candidate list is the leaf links in
container document order followed by the index/header links in container
document order — each population preserves document order, but the two
are concatenated rather than interleaved — and duplicate resolved URLs
are deterministically resolved last-seen-wins over this concatenated
order. -/
theorem candidate_order_per_population (doc : List Anchor)
    (h : docOrdered doc = true) :
    all_links doc
      = doc.filter (fun a => a.isLeaf) ++ doc.filter (fun a => a.isIndex) ∧
    docOrdered (doc.filter (fun a => a.isLeaf)) = true ∧
    docOrdered (doc.filter (fun a => a.isIndex)) = true ∧
    (∀ (m : List (Str × Str)) (k v : Str),
      dictLookup (dictInsert m k v) k = some v) :=
  ⟨rfl, docOrdered_filter _ doc h, docOrdered_filter _ doc h,
   dictLookup_dictInsert⟩

/-- Witness for the amended C8 at the concrete container `doc8`. -/
theorem candidate_order_per_population_witness :
    docOrdered (doc8.filter (fun a => a.isLeaf)) = true ∧
    dictLookup (dictInsert [(str "/a", str "x")] (str "/a") (str "y"))
        (str "/a") = some (str "y") := by
  have h := candidate_order_per_population doc8 (by decide)
  exact ⟨h.2.1, h.2.2.2 [(str "/a", str "x")] (str "/a") (str "y")⟩

end WebScraper

namespace WebScraper

/-! ## Crawl Scheduler

Modelled from the spec: the concurrent Crawl Scheduler — per-category
tasks gated by a counting gate of `MAX_CONCURRENT_CATEGORIES`
slots, joined before summing the per-category persisted counts — is the
concurrent script variant, which is not among the sources under src/
(src/scraper.py's `main` is the sequential variant, and
src/database.py's Store has no caller there).  Sections 4.5 and 5 of the
spec describe it, and the model below follows those words: a category
task is abstracted to the count it will contribute, and the scheduler is
a transition system that may start a pending task while fewer than
`MAX_CONCURRENT_CATEGORIES` are active, and may finish an active task,
moving its count to the completed ones. -/

/-- Modelled from the spec: the concurrency limit of the missing
concurrent variant ("no more than `MAX_CONCURRENT_CATEGORIES` (10) active
at any instant"). -/
def MAX_CONCURRENT_CATEGORIES : Nat := 10

/-- Modelled from the spec: a scheduler state — categories not yet
started, categories currently running, and finished categories, each
abstracted to its per-category persisted count. -/
structure SchedState where
  pending : List Nat
  active : List Nat
  done : List Nat
deriving DecidableEq, Repr

/-- Modelled from the spec: one scheduler transition.  `start` begins the
next pending task when the gate has a free slot; `finish`
completes any active task (completion order is not guaranteed), banking
its count. -/
inductive SchedStep : SchedState → SchedState → Prop
  | start (c : Nat) (rest active done : List Nat)
      (hgate : active.length < MAX_CONCURRENT_CATEGORIES) :
      SchedStep ⟨c :: rest, active, done⟩ ⟨rest, c :: active, done⟩
  | finish (c : Nat) (pending a1 a2 done : List Nat) :
      SchedStep ⟨pending, a1 ++ c :: a2, done⟩ ⟨pending, a1 ++ a2, c :: done⟩

/-- Modelled from the spec: the states a run over category counts `cats`
can reach from the initial state (all pending, none active, none done). -/
inductive SchedReach (cats : List Nat) : SchedState → Prop
  | init : SchedReach cats ⟨cats, [], []⟩
  | step {s t : SchedState} (hs : SchedReach cats s) (hst : SchedStep s t) :
      SchedReach cats t

/-- The run invariant: the gate bound holds and no count is lost. -/
theorem schedReach_invariant (cats : List Nat) (s : SchedState)
    (hr : SchedReach cats s) :
    s.active.length ≤ MAX_CONCURRENT_CATEGORIES ∧
    s.pending.sum + s.active.sum + s.done.sum = cats.sum := by
  induction hr with
  | init => simp
  | step hs hst ih =>
    cases hst with
    | start c rest active done hgate =>
      refine ⟨by simpa using hgate, ?_⟩
      have := ih.2
      simp only [List.sum_cons] at this ⊢
      omega
    | finish c pending a1 a2 done =>
      have hlen := ih.1
      have hsum := ih.2
      simp only [List.length_append, List.length_cons] at hlen
      simp only [List.sum_append, List.sum_cons] at hsum ⊢
      constructor
      · simp only [List.length_append]
        omega
      · omega

end WebScraper

namespace WebScraper

/-- C9: in every reachable scheduler state at most
`MAX_CONCURRENT_CATEGORIES` category tasks are active, and once the run
has finished every task (none pending, none active), the banked
per-category counts sum to exactly the sum over all resolved
categories. -/
theorem scheduler_bound_and_total (cats : List Nat) (s : SchedState)
    (hr : SchedReach cats s) :
    s.active.length ≤ MAX_CONCURRENT_CATEGORIES ∧
    (s.pending = [] → s.active = [] → s.done.sum = cats.sum) := by
  obtain ⟨hlen, hsum⟩ := schedReach_invariant cats s hr
  refine ⟨hlen, fun hp ha => ?_⟩
  rw [hp, ha] at hsum
  simpa using hsum

/-- Witness for C9: a full two-category run (start both, finish both)
reaches the all-done state with the correct total. -/
theorem scheduler_bound_and_total_witness :
    (SchedState.mk [] [] [3, 4]).active.length ≤ MAX_CONCURRENT_CATEGORIES ∧
    (SchedState.mk [] [] [3, 4]).done.sum = ([3, 4] : List Nat).sum := by
  have h0 : SchedReach [3, 4] ⟨[3, 4], [], []⟩ := SchedReach.init
  have h1 : SchedReach [3, 4] ⟨[4], [3], []⟩ :=
    SchedReach.step h0 (SchedStep.start 3 [4] [] [] (by decide))
  have h2 : SchedReach [3, 4] ⟨[], [4, 3], []⟩ :=
    SchedReach.step h1 (SchedStep.start 4 [] [3] [] (by decide))
  have h3 : SchedReach [3, 4] ⟨[], [3], [4]⟩ :=
    SchedReach.step h2 (SchedStep.finish 4 [] [] [3] [])
  have h4 : SchedReach [3, 4] ⟨[], [], [3, 4]⟩ :=
    SchedReach.step h3 (SchedStep.finish 3 [] [] [] [4])
  have h := scheduler_bound_and_total [3, 4] ⟨[], [], [3, 4]⟩ h4
  exact ⟨h.1, h.2 rfl rfl⟩

end WebScraper
